import Mathlib

/-
  Shallow embedding of the taskbot check-in/check-out core:
  the check_ins table operations of src/internal/db/db.go and the command
  handlers of src/internal/bot/commands.go and src/internal/bot/report.go,
  together with the schema constraints of src/migrations.

  Times are modelled as integers (nanoseconds, as Go time.Duration);
  UUIDs as naturals; Discord guild ids as strings.  Tables are lists of
  rows in physical insertion order; a SELECT ... LIMIT 1 without ORDER BY
  is modelled as the first matching row in that order.
-/

deriving instance DecidableEq for Except

namespace Taskbot

/-- Nanoseconds per second, Go time.Second. -/
def secondNs : Int := 1000000000

/-- Row of the check_ins table (migrations/003, 002: id, user_id, server_id,
task_id, start_time, end_time nullable, active). -/
structure CheckIn where
  id : Nat
  userId : Nat
  serverId : String
  taskId : Nat
  startTime : Int
  endTime : Option Int
  active : Bool
deriving Repr, DecidableEq

/-- Row of the tasks table (the columns the embedded operations read). -/
structure Task where
  id : Nat
  userId : Nat
  serverId : String
  name : String
  completed : Bool
  global : Bool
deriving Repr, DecidableEq

/-- Row of the users table (the columns the embedded operations read). -/
structure User where
  id : Nat
  username : String
deriving Repr, DecidableEq

/-- Database state: the tables the embedded operations touch.  guildUsers
models the guild_users membership table of migrations/004 (user_id, guild_id),
which the repository creates to track guild membership. -/
structure Db where
  checkIns : List CheckIn
  tasks : List Task
  users : List User
  guildUsers : List (Nat × String)
deriving Repr, DecidableEq

/-- CreateCheckIn, src/internal/db/db.go lines 74-88.  The INSERT lists only
the columns (id, user_id, server_id, task_id, start_time, active) and passes
the literal true for active; the end_time column is absent from the column
list, so the stored row has end_time NULL and active true regardless of the
EndTime and Active fields of the record passed in. -/
def createCheckIn (db : Db) (ci : CheckIn) : Db :=
  { db with checkIns := db.checkIns ++
      [{ id := ci.id, userId := ci.userId, serverId := ci.serverId,
         taskId := ci.taskId, startTime := ci.startTime,
         endTime := none, active := true }] }

/-- GetActiveCheckIn, src/internal/db/db.go lines 91-119.  SELECT ... WHERE
user_id AND server_id AND active = true LIMIT 1, no ORDER BY; modelled as the
first matching row in table order.  ErrNoRows maps to ok none; the only error
exits are driver failures, so no multi-row case ever produces an error. -/
def getActiveCheckIn (db : Db) (userId : Nat) (serverId : String) :
    Except String (Option CheckIn) :=
  .ok ((db.checkIns.filter
    (fun r => r.userId == userId && r.serverId == serverId && r.active)).head?)

/-- Number of active check_ins rows for a (user, server) pair. -/
def activeCount (db : Db) (userId : Nat) (serverId : String) : Nat :=
  (db.checkIns.filter
    (fun r => r.userId == userId && r.serverId == serverId && r.active)).length

/-- CheckOut, src/internal/db/db.go lines 122-148.  First a SELECT of
start_time WHERE id AND end_time IS NULL; zero rows is pgx.ErrNoRows, wrapped
and returned as an error.  Then endTime is time.Now(), bumped to
startTime + 1s only when now is strictly before startTime.  The UPDATE sets
end_time and active = false WHERE id AND end_time IS NULL; the schema
constraint check_end_time_after_start (migrations/003:
end_time IS NULL OR end_time > start_time) rejects the update, and the Exec
returns an error, whenever a written row would get end_time = start_time.
closeRow is the per-row effect of the UPDATE. -/
def closeRow (checkInId : Nat) (endT : Int) (r : CheckIn) : CheckIn :=
  if r.id == checkInId && r.endTime == none then
    { r with endTime := some endT, active := false }
  else r

/-- Effect of the UPDATE of CheckOut on the table: every still-open row with
the given id gets end_time and active written. -/
def checkOutUpdate (db : Db) (checkInId : Nat) (endT : Int) : Db :=
  { db with checkIns := db.checkIns.map (closeRow checkInId endT) }

def checkOut (db : Db) (checkInId : Nat) (now : Int) : Except String Db :=
  match (db.checkIns.filter
      (fun r => r.id == checkInId && r.endTime == none)).head? with
  | none => .error "error getting check-in: no rows in result set"
  | some row =>
      let endTime : Int :=
        if now < row.startTime then row.startTime + secondNs else now
      if (db.checkIns.filter
          (fun r => r.id == checkInId && r.endTime == none)).all
          (fun r => r.startTime < endTime) then
        .ok (checkOutUpdate db checkInId endTime)
      else
        .error "ERROR: new row for relation check_ins violates check constraint check_end_time_after_start"

/-- GetTaskByID, src/internal/db/db.go lines 151-171.  SELECT WHERE id;
ErrNoRows maps to none. -/
def getTaskByID (db : Db) (taskId : Nat) : Option Task :=
  (db.tasks.filter (fun t => t.id == taskId)).head?

/-- GetCheckInByID, src/internal/db/db.go lines 419-445.  SELECT id, user_id,
task_id, start_time, end_time, active WHERE id; the server_id column is not
selected, so the returned record carries the zero value for it. -/
def getCheckInByID (db : Db) (checkInId : Nat) : Option CheckIn :=
  ((db.checkIns.filter (fun r => r.id == checkInId)).head?).map
    (fun r => { r with serverId := "" })

/-- UpdateTaskStatus, src/internal/db/db.go lines 616-634.  UPDATE tasks SET
completed WHERE id; zero rows affected yields the error "task not found". -/
def updateTaskStatus (db : Db) (taskId : Nat) (completed : Bool) :
    Except String Db :=
  if db.tasks.any (fun t => t.id == taskId) then
    .ok { db with tasks := db.tasks.map (fun t =>
      if t.id == taskId then { t with completed := completed } else t) }
  else
    .error "task not found"

/-- Two's-complement wrap of an exact integer to int64 range, as Go does on
time.Duration arithmetic. -/
def wrap64 (x : Int) : Int := (x + 2 ^ 63) % 2 ^ 64 - 2 ^ 63

/-- Splitting a character list on a separator character, the semantics of
Go strings.Split with a one-character separator: the concatenation of the
parts interleaved with the separator is the input, and no part contains the
separator. -/
def splitOnChar (sep : Char) : List Char → List (List Char)
  | [] => [[]]
  | c :: rest =>
    match splitOnChar sep rest with
    | [] => if c == sep then [[], [c]] else [[c]]
    | h :: t => if c == sep then [] :: h :: t else (c :: h) :: t

/-- Go strconv.Atoi for a 64-bit int, over the characters of the argument
string: an optional leading plus or minus sign, then one or more ASCII digits
and nothing else; the signed value must fit in int64, otherwise a range
error.  Returns none for every failure. -/
def atoi (s : List Char) : Option Int :=
  let (neg, digits) :=
    match s with
    | '+' :: rest => (false, rest)
    | '-' :: rest => (true, rest)
    | l => (false, l)
  if digits.isEmpty then none
  else if digits.all (fun c => c.isDigit) then
    let n : Nat := digits.foldl (fun acc c => acc * 10 + (c.toNat - 48)) 0
    let v : Int := if neg then -(n : Int) else (n : Int)
    if -(2 ^ 63) ≤ v ∧ v ≤ 2 ^ 63 - 1 then some v else none
  else none

/-- The time-string validation of handleDeclare, src/internal/bot/commands.go
lines 792-812: strings.Split on a colon must give exactly two parts, each is
fed to strconv.Atoi, hours below zero are rejected, minutes outside zero to
fifty-nine are rejected.  The error strings are the respondWithError
messages of the three reject branches. -/
def parseDeclareTime (timeStr : String) : Except String (Int × Int) :=
  match splitOnChar ':' timeStr.data with
  | [hs, ms] =>
    match atoi hs, atoi ms with
    | some h, some m =>
        if h < 0 then .error "Invalid hours value"
        else if m < 0 ∨ 60 ≤ m then .error "Invalid minutes value"
        else .ok (h, m)
    | none, _ => .error "Invalid hours value"
    | some h, none =>
        if h < 0 then .error "Invalid hours value"
        else .error "Invalid minutes value"
  | _ => .error "Invalid time format. Please use hh:mm"

/-- Declared duration in nanoseconds: time.Duration(hours) multiplied by
time.Hour plus time.Duration(minutes) multiplied by time.Minute, in wrapping
int64 arithmetic (commands.go line 812). -/
def declareDurationNs (h m : Int) : Int :=
  wrap64 (wrap64 (h * 3600 * secondNs) + m * 60 * secondNs)

/-- Go time.Duration.Round(time.Second): rounds to the nearest whole second,
halves rounded away from zero; Go's remainder operator truncates toward zero
(Int.tmod here), and the overflow guards of the original saturate to the
int64 extremes. -/
def roundSecondNs (d : Int) : Int :=
  let m := secondNs
  let r := Int.tmod d m
  if d < 0 then
    let r' := -r
    if r' + r' < m then d + r'
    else
      let d1 := wrap64 (d - m + r')
      if d1 < d then d1 else -(2 ^ 63)
  else
    if r + r < m then d - r
    else
      let d1 := wrap64 (d + m - r)
      if d1 > d then d1 else 2 ^ 63 - 1

/-- formatDuration, src/internal/bot/utils.go lines 15-30: round to seconds,
split into hours, minutes, seconds with Go's truncating integer division, and
print the nonzero leading fields. -/
def formatDuration (d0 : Int) : String :=
  let d := roundSecondNs d0
  let h := Int.tdiv d (3600 * secondNs)
  let d1 := d - h * (3600 * secondNs)
  let m := Int.tdiv d1 (60 * secondNs)
  let d2 := d1 - m * (60 * secondNs)
  let s := Int.tdiv d2 secondNs
  if h > 0 then
    toString h ++ "h " ++ toString m ++ "m " ++ toString s ++ "s"
  else if m > 0 then
    toString m ++ "m " ++ toString s ++ "s"
  else
    toString s ++ "s"

/-- Outcome of a command handler: the respondWithSuccess or respondWithError
message sent back to the caller. -/
inductive Resp where
  | success (msg : String)
  | error (msg : String)
deriving Repr, DecidableEq

/-- True exactly on the success constructor. -/
def Resp.isSuccess : Resp → Bool
  | .success _ => true
  | .error _ => false

/-- The database write of handleDeclare, src/internal/bot/commands.go lines
849-865: the handler builds a models.CheckIn with StartTime now minus the
declared duration and EndTime pointing at now (Active left at its zero value
false), and hands it to CreateCheckIn, which stores end_time NULL and active
true (see createCheckIn). -/
def declareInsert (db : Db) (userId : Nat) (serverId : String) (taskId : Nat)
    (durationNs : Int) (newId : Nat) (now : Int) : Db :=
  createCheckIn db
    { id := newId, userId := userId, serverId := serverId, taskId := taskId,
      startTime := now - durationNs, endTime := some now, active := false }

/-- Result of handleDeclare: final database, the response message, and
whether the over-eight-hours WARNING branch of the command log was taken
(commands.go lines 832-847). -/
structure DeclareResult where
  db : Db
  resp : Resp
  overEightHours : Bool
deriving Repr, DecidableEq

/-- handleDeclare, src/internal/bot/commands.go lines 784-905, for a resolved
user and task id.  Order as in the source: parse the time string, look the
task up, log (flagging durations above eight hours, never rejecting them),
insert the declared record, then fetch the active check-in and auto-close it,
reporting that checkout in the response.  now is the time.Now() of line 850;
nowCheckout the time.Now() inside the CheckOut call.  The two none branches
marked panic model nil-pointer dereferences the Go code would hit. -/
def handleDeclare (db : Db) (userId : Nat) (serverId : String) (taskId : Nat)
    (timeStr : String) (newId : Nat) (now nowCheckout : Int) : DeclareResult :=
  match parseDeclareTime timeStr with
  | .error e => ⟨db, .error e, false⟩
  | .ok (h, m) =>
    match getTaskByID db taskId with
    | none => ⟨db, .error "Task not found", false⟩
    | some task =>
      let duration := declareDurationNs h m
      let over := decide (duration > 8 * 3600 * secondNs)
      let db1 := declareInsert db userId serverId task.id duration newId now
      match getActiveCheckIn db1 userId serverId with
      | .error e => ⟨db1, .error ("Error checking active tasks: " ++ e), over⟩
      | .ok none =>
          ⟨db1, .success ("Declared " ++ formatDuration duration ++
            " spent on task: " ++ task.name), over⟩
      | .ok (some a) =>
        match getTaskByID db1 a.taskId with
        | none => ⟨db1, .error "panic: nil active task dereference", over⟩
        | some activeTask =>
          match checkOut db1 a.id nowCheckout with
          | .error e => ⟨db1, .error ("Error checking out: " ++ e), over⟩
          | .ok db2 =>
            match getCheckInByID db2 a.id with
            | none => ⟨db2, .error "Error retrieving checkout details: no rows in result set", over⟩
            | some upd =>
              match upd.endTime with
              | none => ⟨db2, .error "panic: nil EndTime dereference", over⟩
              | some e =>
                let activeDuration := e - upd.startTime
                ⟨db2, .success ("Declared " ++ formatDuration duration ++
                  " spent on task: " ++ task.name ++
                  "\nChecked out from active task: " ++ activeTask.name ++
                  " (Time spent: " ++ formatDuration activeDuration ++ ")"), over⟩

/-- handleCheckin for the existing-task subcommand, src/internal/bot/commands.go
lines 440-529: resolve the task, fetch the active check-in, if one exists
check out of it first, then create the new check-in record; the success
response announces only the newly started task.  nowCheckout is the
time.Now() inside CheckOut; nowStart the time.Now() of line 519. -/
def handleCheckinExisting (db : Db) (userId : Nat) (serverId : String)
    (taskId : Nat) (newId : Nat) (nowCheckout nowStart : Int) : Db × Resp :=
  match getTaskByID db taskId with
  | none => (db, .error "Task not found")
  | some task =>
    match getActiveCheckIn db userId serverId with
    | .error e => (db, .error ("Error checking active tasks: " ++ e))
    | .ok activeOpt =>
      let afterClose : Except String Db :=
        match activeOpt with
        | none => .ok db
        | some a => checkOut db a.id nowCheckout
      match afterClose with
      | .error e => (db, .error ("Error checking out from previous task: " ++ e))
      | .ok db1 =>
        let db2 := createCheckIn db1
          { id := newId, userId := userId, serverId := serverId,
            taskId := taskId, startTime := nowStart,
            endTime := none, active := true }
        (db2, .success ("Started working on task: " ++ task.name))

/-- handleTask, src/internal/bot/commands.go lines 643-710: resolve the task,
reject non-owners that are not admins, reject when the task is the one the
requesting user's active check-in references, otherwise update the completed
flag and confirm. -/
def handleTask (db : Db) (userId : Nat) (serverId : String) (taskId : Nat)
    (completed : Bool) (isUserAdmin : Bool) : Db × Resp :=
  match getTaskByID db taskId with
  | none => (db, .error "Task not found")
  | some task =>
    if !isUserAdmin && task.userId != userId then
      (db, .error "You can only update your own tasks")
    else
      match getActiveCheckIn db userId serverId with
      | .error e => (db, .error ("Error checking active tasks: " ++ e))
      | .ok activeOpt =>
        let blocked :=
          match activeOpt with
          | none => false
          | some a => a.taskId == taskId
        if blocked then
          (db, .error "Cannot update status of an active task. Please checkout first.")
        else
          match updateTaskStatus db taskId completed with
          | .error e => (db, .error ("Error updating task status: " ++ e))
          | .ok db1 =>
            let statusText := if completed then "completed" else "open"
            let message :=
              "Task '" ++ task.name ++ "' marked as " ++ statusText ++
                (if isUserAdmin && task.userId != userId then " (admin action)"
                 else "")
            (db1, .success message)

/-- GetAllTaskHistory, src/internal/db/db.go lines 312-354: closed check-ins
(end_time IS NOT NULL) of the server whose start_time lies in the half-open
window, inner-joined with their tasks.  The ORDER BY start_time DESC of the
query only fixes a presentation order and is dropped: every consumer below
folds the rows into Go maps, whose iteration order is unspecified anyway. -/
def getAllTaskHistory (db : Db) (serverId : String) (startDate endDate : Int) :
    List (CheckIn × Task) :=
  (db.checkIns.filter (fun c =>
      c.serverId == serverId && startDate ≤ c.startTime &&
        c.startTime < endDate && c.endTime.isSome)).filterMap
    (fun c => (getTaskByID db c.taskId).map (fun t => (c, t)))

/-- GetGuildUsers, src/internal/db/db.go lines 637-672: SELECT DISTINCT users
JOIN check_ins ON user_id WHERE server_id — exactly the users owning at least
one check_ins row, open or closed, in the guild.  The guild_users membership
table of migrations/004 is not consulted.  ORDER BY username only orders the
presentation and is dropped here. -/
def getGuildUsers (db : Db) (serverId : String) : List User :=
  db.users.filter (fun u =>
    db.checkIns.any (fun ci => ci.userId == u.id && ci.serverId == serverId))

/-- The report rows handleReport builds for the no-username-filter branch,
src/internal/bot/report.go lines 113-196: fold the window history into
per-user, per-task durations; emit one row per (user, task) for roster users
with window activity (task names resolved through the taskNames map, where
the last assignment in history order wins); then one
(username, "No tasks", "0h 0m") row for every roster user without window
activity.  Go map iteration order is unspecified; the fold order here follows
first appearance in the history, which leaves row membership unchanged.  The
final sort.Slice only reorders rows for presentation and is dropped. -/
def reportRows (db : Db) (serverId : String) (startDate endDate : Int) :
    List (String × String × String) :=
  let hist := getAllTaskHistory db serverId startDate endDate
  let roster := getGuildUsers db serverId
  let histUsers := (hist.map (fun p => p.1.userId)).dedup
  let activityRows := histUsers.flatMap (fun uid =>
    match (roster.filter (fun u => u.id == uid)).head? with
    | none => []
    | some u =>
      let mine := hist.filter (fun p => p.1.userId == uid)
      let taskIds := (mine.map (fun p => p.1.taskId)).dedup
      taskIds.map (fun tid =>
        let dur := ((mine.filter (fun p => p.1.taskId == tid)).map
          (fun p => p.1.endTime.getD 0 - p.1.startTime)).sum
        let tname := (((hist.filter (fun p => p.1.taskId == tid)).map
          (fun p => p.2.name)).getLast?).getD ""
        (u.username, tname, formatDuration dur)))
  let zeroRows := (roster.filter
      (fun u => !histUsers.contains u.id)).map
    (fun u => (u.username, "No tasks", "0h 0m"))
  activityRows ++ zeroRows

/-- Duration-string grammar asserted by the specification: two digit fields
hh and mm separated by one colon, hours any natural number, minutes at most
fifty-nine.  Written from the specification wording, for comparison against
parseDeclareTime, which is translated from the source. -/
def specClaimDurationForm (s : String) : Bool :=
  match splitOnChar ':' s.data with
  | [hs, ms] =>
      !hs.isEmpty && !ms.isEmpty &&
      hs.all (fun c => c.isDigit) && ms.all (fun c => c.isDigit) &&
      decide ((ms.foldl (fun acc c => acc * 10 + (c.toNat - 48)) 0) ≤ 59)
  | _ => false

/-
  Concrete database states used by the counterexamples and witnesses.
-/

/-- A task in guild G owned by user 1. -/
def taskX : Task := ⟨5, 1, "G", "TaskX", false, false⟩

/-- Task Design of the re-checkin scenario. -/
def designTask : Task := ⟨1, 1, "G", "Design", false, false⟩

/-- Task Code of the re-checkin scenario. -/
def codeTask : Task := ⟨2, 1, "G", "Code", false, false⟩

/-- User 1. -/
def alice : User := ⟨1, "alice"⟩

/-- User 2, a guild member with no check-ins at all. -/
def bob : User := ⟨2, "bob"⟩

/-- State with no check-ins: user 1 is idle in guild G. -/
def idleDb : Db := ⟨[], [taskX], [alice], [(1, "G")]⟩

/-- State with one active check-in (row 10) for user 1 in guild G. -/
def activeDb : Db := ⟨[⟨10, 1, "G", 5, 0, none, true⟩], [taskX], [alice], [(1, "G")]⟩

/-- State where row 10 is already closed. -/
def closedDb : Db :=
  ⟨[⟨10, 1, "G", 5, 0, some (3600 * secondNs), false⟩], [taskX], [alice], [(1, "G")]⟩

/-- Corrupted state with two active rows for the same (user, guild) pair. -/
def twoActiveDb : Db :=
  ⟨[⟨10, 1, "G", 5, 0, none, true⟩, ⟨11, 1, "G", 5, 50, none, true⟩],
   [taskX], [alice], [(1, "G")]⟩

/-- State for the re-checkin scenario: user 1 is active on Design. -/
def checkinDb : Db :=
  ⟨[⟨10, 1, "G", 1, 0, none, true⟩], [designTask, codeTask], [alice], [(1, "G")]⟩

/-- Report state: alice has one closed check-in on Design during seconds five
to ten; bob is a known guild member (users row and guild_users row) with no
check-ins whatsoever. -/
def reportDb : Db :=
  ⟨[⟨10, 1, "G", 1, 5 * secondNs, some (10 * secondNs), false⟩],
   [designTask], [alice, bob], [(1, "G"), (2, "G")]⟩

/-
  Helper lemmas shared by the claim theorems.
-/

/-- A list whose length is at most one and which contains a is exactly [a]. -/
theorem eq_singleton_of_mem_of_length_le_one {α : Type} {l : List α} {a : α}
    (hlen : l.length ≤ 1) (ha : a ∈ l) : l = [a] := by
  match l, ha with
  | [x], ha =>
      have : a = x := by simpa using ha
      simp [this]
  | x :: y :: t, _ => simp at hlen

/-- If no row of l carries the id, the id-filter is empty. -/
theorem filter_id_nil (l : List CheckIn) (i : Nat) (p : CheckIn → Bool)
    (h : i ∉ l.map CheckIn.id) :
    l.filter (fun r => r.id == i && p r) = [] := by
  induction l with
  | nil => rfl
  | cons x t ih =>
      simp only [List.map_cons, List.mem_cons, not_or] at h
      have hx : (x.id == i) = false := by
        simp [beq_eq_false_iff_ne]
        intro hxe
        exact h.1 hxe.symm
      simp [List.filter_cons, hx, ih h.2]

/-- With pairwise distinct ids, filtering on the id of a member a keeps
exactly a, provided a itself passes the extra side condition. -/
theorem filter_id_singleton (l : List CheckIn)
    (hnd : (l.map CheckIn.id).Nodup) (a : CheckIn) (ha : a ∈ l)
    (p : CheckIn → Bool) (hpa : p a = true) :
    l.filter (fun r => r.id == a.id && p r) = [a] := by
  induction l with
  | nil => cases ha
  | cons x t ih =>
      simp only [List.map_cons, List.nodup_cons] at hnd
      rcases List.mem_cons.mp ha with hax | hat
      · subst hax
        have ht : t.filter (fun r => r.id == a.id && p r) = [] :=
          filter_id_nil t a.id p hnd.1
        simp [List.filter_cons, hpa, ht]
      · have hxid : (x.id == a.id) = false := by
          simp [beq_eq_false_iff_ne]
          intro hxe
          exact hnd.1 (hxe ▸ List.mem_map_of_mem CheckIn.id hat)
        simp [List.filter_cons, hxid, ih hnd.2 hat]

/-- After the CheckOut UPDATE ran for an id, no open row with that id is
left: the conditional WHERE end_time IS NULL can never match again. -/
theorem filter_open_after_close (l : List CheckIn) (i : Nat) (e : Int) :
    (l.map (closeRow i e)).filter (fun r => r.id == i && r.endTime == none)
      = [] := by
  induction l with
  | nil => rfl
  | cons x t ih =>
      by_cases hx : (x.id == i && x.endTime == none) = true
      · have h1 : closeRow i e x = { x with endTime := some e, active := false } := by
          simp [closeRow, hx]
        simp [List.map_cons, List.filter_cons, h1, ih]
      · have h1 : closeRow i e x = x := by
          simp [closeRow, hx]
        simp [List.map_cons, List.filter_cons, h1, hx, ih]

/-- closeRow keeps the id of every row. -/
theorem closeRow_id (i : Nat) (e : Int) (r : CheckIn) :
    (closeRow i e r).id = r.id := by
  unfold closeRow
  split <;> rfl

/-
  C1 and C2: the Declare write path.
-/

/-- C1: the single-active invariant does not hold through handleDeclare.
With one active session for (user 1, guild G), the state reached right after
the declared record is inserted (commands.go line 861) carries two active
rows for the pair, because CreateCheckIn stores the record with active true
and end_time NULL; and after the whole handler, including its auto-close,
finishes, the surviving active row is the declared record itself. -/
theorem declare_intermediate_state_two_active :
    activeCount activeDb 1 "G" = 1 ∧
    activeCount (declareInsert activeDb 1 "G" 5 (declareDurationNs 1 0) 100
      (7200 * secondNs)) 1 "G" = 2 ∧
    getActiveCheckIn (handleDeclare activeDb 1 "G" 5 "01:00" 100
      (7200 * secondNs) (7201 * secondNs)).db 1 "G" =
      .ok (some ⟨100, 1, "G", 5, 3600 * secondNs, none, true⟩) := by
  refine ⟨rfl, by decide, by decide⟩

/-- C2: the declared record is stored open and is returned as the active
check-in.  Starting from an idle state, handleDeclare inserts the declared
record through CreateCheckIn, which drops the EndTime the handler set, so
the row sits in the table with end_time NULL and active true, and the
GetActiveCheckIn issued right after the insert returns that very record
instead of none. -/
theorem declare_record_becomes_active :
    getActiveCheckIn idleDb 1 "G" = .ok none ∧
    getActiveCheckIn (declareInsert idleDb 1 "G" 5 (declareDurationNs 1 0) 100
      (7200 * secondNs)) 1 "G" =
      .ok (some ⟨100, 1, "G", 5, 3600 * secondNs, none, true⟩) := by
  refine ⟨rfl, by decide⟩

/-
  C3: checkout of an already-closed session.
-/

/-- C3 counterexample: CheckOut on a check-in whose end_time is already set
is not a no-op success: the initial SELECT restricted to end_time IS NULL
finds no row and the call returns the wrapped ErrNoRows error. -/
theorem checkOut_already_closed_errors :
    checkOut closedDb 10 (7200 * secondNs) =
      .error "error getting check-in: no rows in result set" := by decide

/-- C3 amended: after a CheckOut succeeds, repeating it on the same check-in
returns an error rather than a second success: the UPDATE of the first call
left no open row with that id, so the retry hits the ErrNoRows branch and
writes nothing. -/
theorem checkOut_retry_errors (db db1 : Db) (i : Nat) (now now2 : Int)
    (h : checkOut db i now = .ok db1) :
    checkOut db1 i now2 = .error "error getting check-in: no rows in result set" := by
  have key : ∃ e, db1 = checkOutUpdate db i e := by
    simp only [checkOut] at h
    split at h
    · simp at h
    · split at h
      · split at h
        · injection h with h2
          exact ⟨_, h2.symm⟩
        · simp at h
      · split at h
        · injection h with h2
          exact ⟨_, h2.symm⟩
        · simp at h
  obtain ⟨e, rfl⟩ := key
  have hfil := filter_open_after_close db.checkIns i e
  simp only [checkOut, checkOutUpdate, hfil, List.head?_nil]

/-- C3 witness: a concrete first checkout succeeds, and the theorem applied
to it shows the retry errors. -/
theorem checkOut_retry_errors_witness :
    checkOut (checkOutUpdate activeDb 10 (3600 * secondNs)) 10 (9000 * secondNs) =
      .error "error getting check-in: no rows in result set" :=
  checkOut_retry_errors activeDb (checkOutUpdate activeDb 10 (3600 * secondNs))
    10 (3600 * secondNs) (9000 * secondNs) (by decide)

/-
  C4: the end-time computation of CheckOut.
-/

/-- C4 counterexample: with start_time zero and now half a second later,
CheckOut succeeds and writes end_time = now, not the claimed
max(now, start_time + 1s): the written end_time differs from that maximum
and the closed span is under one second. -/
theorem checkOut_not_max_clamp :
    checkOut activeDb 10 500000000 = .ok (checkOutUpdate activeDb 10 500000000) ∧
    (500000000 : Int) ≠ max 500000000 (0 + secondNs) := by
  refine ⟨by decide, by decide⟩

/-- C4 amended: CheckOut writes end_time = now whenever now is at least
start_time, and start_time + 1s only when now is strictly before start_time;
when now equals start_time the written row would violate the schema check
constraint end_time > start_time, so the call errors instead of clamping. -/
theorem checkOut_end_time_cases (db : Db) (i : Nat) (now : Int) (row : CheckIn)
    (hnd : (db.checkIns.map CheckIn.id).Nodup)
    (hh : (db.checkIns.filter (fun r => r.id == i && r.endTime == none)).head?
      = some row) :
    (row.startTime < now →
      checkOut db i now = .ok (checkOutUpdate db i now)) ∧
    (now < row.startTime →
      checkOut db i now = .ok (checkOutUpdate db i (row.startTime + secondNs))) ∧
    (now = row.startTime →
      checkOut db i now =
        .error "ERROR: new row for relation check_ins violates check constraint check_end_time_after_start") := by
  have hmem : row ∈ db.checkIns.filter (fun r => r.id == i && r.endTime == none) :=
    List.mem_of_mem_head? (by simp [hh])
  have hmem2 := List.mem_filter.mp hmem
  have hrow : row.id = i ∧ row.endTime = none := by
    have := hmem2.2
    simp only [Bool.and_eq_true, beq_iff_eq] at this
    exact ⟨this.1, this.2⟩
  have hfl : db.checkIns.filter (fun r => r.id == i && r.endTime == none) = [row] := by
    rw [← hrow.1]
    exact filter_id_singleton db.checkIns hnd row hmem2.1
      (fun r => r.endTime == none) (by simp [hrow.2])
  refine ⟨?_, ?_, ?_⟩
  · intro hlt
    have h1 : (if now < row.startTime then row.startTime + secondNs else now) = now :=
      if_neg (by omega)
    simp only [checkOut, hfl, List.head?_cons, h1, List.all_cons, List.all_nil,
      Bool.and_true]
    rw [if_pos (by simpa using hlt)]
  · intro hlt
    have h1 : (if now < row.startTime then row.startTime + secondNs else now)
        = row.startTime + secondNs := if_pos hlt
    simp only [checkOut, hfl, List.head?_cons, h1, List.all_cons, List.all_nil,
      Bool.and_true]
    rw [if_pos (by simp only [decide_eq_true_eq, secondNs]; omega)]
  · intro heq
    have h1 : (if now < row.startTime then row.startTime + secondNs else now) = now :=
      if_neg (by omega)
    simp only [checkOut, hfl, List.head?_cons, h1, List.all_cons, List.all_nil,
      Bool.and_true]
    rw [if_neg (by simp only [decide_eq_true_eq]; omega)]

/-- C4 witness: the theorem applied to the concrete active session with now
two hours after its start. -/
theorem checkOut_end_time_cases_witness :
    checkOut activeDb 10 (7200 * secondNs) =
      .ok (checkOutUpdate activeDb 10 (7200 * secondNs)) :=
  (checkOut_end_time_cases activeDb 10 (7200 * secondNs)
    ⟨10, 1, "G", 5, 0, none, true⟩ (by decide) (by decide)).1 (by decide)

/-
  C5: GetActiveCheckIn with more than one active row.
-/

/-- C5 counterexample: in a state with two active rows for (user 1, guild G),
GetActiveCheckIn does not fail with an IntegrityError: it silently returns
the first row of the LIMIT 1 query. -/
theorem getActiveCheckIn_two_rows_no_error :
    activeCount twoActiveDb 1 "G" = 2 ∧
    getActiveCheckIn twoActiveDb 1 "G" =
      .ok (some ⟨10, 1, "G", 5, 0, none, true⟩) := by
  refine ⟨by decide, by decide⟩

/-- C5 amended: GetActiveCheckIn never returns an error for any table
contents; any row it returns is an active row of the pair taken from the
table, and a none result does mean no active row exists — but a
multiple-active state is silently resolved by the LIMIT 1 pick. -/
theorem getActiveCheckIn_no_integrity_error (db : Db) (u : Nat) (s : String) :
    (∀ e, getActiveCheckIn db u s ≠ .error e) ∧
    (∀ r, getActiveCheckIn db u s = .ok (some r) →
      r ∈ db.checkIns ∧ r.userId = u ∧ r.serverId = s ∧ r.active = true) ∧
    (getActiveCheckIn db u s = .ok none → activeCount db u s = 0) := by
  refine ⟨?_, ?_, ?_⟩
  · intro e h
    simp [getActiveCheckIn] at h
  · intro r h
    simp only [getActiveCheckIn, Except.ok.injEq] at h
    have hmem : r ∈ db.checkIns.filter
        (fun r => r.userId == u && r.serverId == s && r.active) :=
      List.mem_of_mem_head? (by simp [h])
    have hm := List.mem_filter.mp hmem
    have hp := hm.2
    simp only [Bool.and_eq_true, beq_iff_eq] at hp
    exact ⟨hm.1, hp.1.1, hp.1.2, hp.2⟩
  · intro h
    simp only [getActiveCheckIn, Except.ok.injEq] at h
    have : db.checkIns.filter
        (fun r => r.userId == u && r.serverId == s && r.active) = [] := by
      simpa using h
    simp [activeCount, this]

/-- C5 witness: the theorem applied to the two-active state extracts that the
returned row is an active row of the pair. -/
theorem getActiveCheckIn_no_integrity_error_witness :
    (⟨10, 1, "G", 5, 0, none, true⟩ : CheckIn) ∈ twoActiveDb.checkIns ∧
    (⟨10, 1, "G", 5, 0, none, true⟩ : CheckIn).userId = 1 ∧
    (⟨10, 1, "G", 5, 0, none, true⟩ : CheckIn).serverId = "G" ∧
    (⟨10, 1, "G", 5, 0, none, true⟩ : CheckIn).active = true :=
  (getActiveCheckIn_no_integrity_error twoActiveDb 1 "G").2.1 _ (by decide)

/-
  C6: the Active to Active transition of handleCheckin.
-/

/-- C6 counterexample: re-checkin from Design to Code closes the old session
and opens the new one, but the success response is only the announcement of
the new task; the closed session's name (and so its duration) never occurs
in it, contrary to the claim that it is reported first. -/
theorem checkin_response_omits_closed_session :
    handleCheckinExisting checkinDb 1 "G" 2 11 (3600 * secondNs) (3600 * secondNs) =
      (⟨[⟨10, 1, "G", 1, 0, some (3600 * secondNs), false⟩,
         ⟨11, 1, "G", 2, 3600 * secondNs, none, true⟩],
        [designTask, codeTask], [alice], [(1, "G")]⟩,
       .success "Started working on task: Code") ∧
    ¬ ("Design".data <:+: "Started working on task: Code".data) := by
  refine ⟨by decide, by decide⟩

/-- C6 amended: when a session is active, handleCheckin first closes it via
CheckOut and only then inserts the new check-in, but the success response
announces just the newly started task; the closed session is not part of the
response. -/
theorem checkin_closes_old_then_announces_new (db db1 : Db) (u : Nat)
    (s : String) (tid newId : Nat) (task : Task) (a : CheckIn) (co st : Int)
    (htask : getTaskByID db tid = some task)
    (hact : getActiveCheckIn db u s = .ok (some a))
    (hco : checkOut db a.id co = .ok db1) :
    handleCheckinExisting db u s tid newId co st =
      (createCheckIn db1 ⟨newId, u, s, tid, st, none, true⟩,
       .success ("Started working on task: " ++ task.name)) := by
  simp only [handleCheckinExisting, htask, hact, hco]

/-- C6 witness: the amended theorem applied to the Design to Code scenario. -/
theorem checkin_closes_old_then_announces_new_witness :
    handleCheckinExisting checkinDb 1 "G" 2 11 (7200 * secondNs) (7200 * secondNs) =
      (createCheckIn (checkOutUpdate checkinDb 10 (7200 * secondNs))
        ⟨11, 1, "G", 2, 7200 * secondNs, none, true⟩,
       .success ("Started working on task: " ++ codeTask.name)) :=
  checkin_closes_old_then_announces_new checkinDb
    (checkOutUpdate checkinDb 10 (7200 * secondNs)) 1 "G" 2 11 codeTask
    ⟨10, 1, "G", 1, 0, none, true⟩ (7200 * secondNs) (7200 * secondNs)
    (by decide) (by decide) (by decide)

/-
  C7: report coverage of members without activity.
-/

/-- C7 counterexample: bob is a known member of guild G (he has a users row
and a guild_users membership row) with no check-ins at all, yet no row of the
report mentions him: the roster the aggregation joins against is drawn from
the check_ins table, not from the full membership. -/
theorem report_omits_inactive_member :
    bob ∈ reportDb.users ∧ (2, "G") ∈ reportDb.guildUsers ∧
    reportDb.checkIns.all (fun c => c.userId != bob.id) = true ∧
    (reportRows reportDb "G" 0 (1000 * secondNs)).all
      (fun row => row.1 != "bob") = true := by decide

/-- C7 amended: every user the roster query GetGuildUsers returns (that is,
every user with at least one check-in row in the guild, at any time) who has
no closed activity inside the report window still appears in the report with
the zero row No tasks, 0h 0m; members without any check-in row are outside
that roster and are dropped. -/
theorem report_zero_row_for_roster_user (db : Db) (s : String) (sd ed : Int)
    (u : User) (hu : u ∈ getGuildUsers db s)
    (hnoact : ∀ c ∈ db.checkIns, c.userId = u.id → c.serverId = s →
      ¬(sd ≤ c.startTime ∧ c.startTime < ed ∧ c.endTime.isSome = true)) :
    (u.username, "No tasks", "0h 0m") ∈ reportRows db s sd ed := by
  have hhist : ∀ p ∈ getAllTaskHistory db s sd ed, p.1.userId ≠ u.id := by
    intro p hp hne
    simp only [getAllTaskHistory, List.mem_filterMap] at hp
    obtain ⟨c, hc, hmap⟩ := hp
    have hc2 := List.mem_filter.mp hc
    have hpred := hc2.2
    simp only [Bool.and_eq_true, beq_iff_eq, decide_eq_true_eq] at hpred
    cases hgt : getTaskByID db c.taskId with
    | none =>
        rw [hgt] at hmap
        simp at hmap
    | some t =>
        rw [hgt] at hmap
        rw [Option.map_some'] at hmap
        injection hmap with h2
        have hp1 : p.1 = c := by
          rw [← h2]
        rw [hp1] at hne
        exact hnoact c hc2.1 hne hpred.1.1.1
          ⟨hpred.1.1.2, hpred.1.2, hpred.2⟩
  have hnotin : u.id ∉
      ((getAllTaskHistory db s sd ed).map (fun p => p.1.userId)).dedup := by
    intro hin
    rw [List.mem_dedup] at hin
    obtain ⟨p, hp, hpe⟩ := List.mem_map.mp hin
    exact hhist p hp hpe
  simp only [reportRows]
  refine List.mem_append.mpr (Or.inr ?_)
  refine List.mem_map.mpr ⟨u, ?_, rfl⟩
  refine List.mem_filter.mpr ⟨hu, ?_⟩
  simpa using hnotin

/-- C7 witness: alice has one check-in in guild G but it lies outside the
late window, so the amended theorem puts her zero row in that report. -/
theorem report_zero_row_for_roster_user_witness :
    ("alice", "No tasks", "0h 0m") ∈
      reportRows reportDb "G" (1000 * secondNs) (2000 * secondNs) :=
  report_zero_row_for_roster_user reportDb "G" (1000 * secondNs)
    (2000 * secondNs) alice (by decide) (by decide)

/-
  C9: task-status updates against the active task.
-/

/-- C9: with at most one active row for the pair (so that the active check-in
of the requesting user is well defined), an authorized status update against
the task that active check-in references fails with the checkout-first error
and leaves the state unchanged, while an update against any other task is
applied and confirmed. -/
theorem handleTask_blocks_active_task (db : Db) (u : Nat) (s : String)
    (tid : Nat) (completed admin : Bool) (task : Task)
    (htask : getTaskByID db tid = some task)
    (hauth : admin = true ∨ task.userId = u)
    (hone : activeCount db u s ≤ 1) :
    ((∃ r ∈ db.checkIns,
        r.userId = u ∧ r.serverId = s ∧ r.active = true ∧ r.taskId = tid) →
      handleTask db u s tid completed admin =
        (db, .error "Cannot update status of an active task. Please checkout first.")) ∧
    ((∀ r ∈ db.checkIns,
        r.userId = u → r.serverId = s → r.active = true → r.taskId ≠ tid) →
      handleTask db u s tid completed admin =
        ({ db with tasks := db.tasks.map (fun t =>
            if t.id == tid then { t with completed := completed } else t) },
         .success ("Task '" ++ task.name ++ "' marked as " ++
           (if completed then "completed" else "open") ++
           (if admin && task.userId != u then " (admin action)" else "")))) := by
  have hauthb : (!admin && task.userId != u) = false := by
    rcases hauth with h | h
    · rw [h]
      rfl
    · simp [h]
  have htm := List.mem_filter.mp
    (List.mem_of_mem_head? (show task ∈ (db.tasks.filter
      (fun t => t.id == tid)).head? by simp [getTaskByID] at htask; simp [htask]))
  have hany : db.tasks.any (fun t => t.id == tid) = true :=
    List.any_eq_true.mpr ⟨task, htm.1, htm.2⟩
  constructor
  · rintro ⟨r, hrmem, hru, hrs, hract, hrtid⟩
    have hrfil : r ∈ db.checkIns.filter
        (fun r => r.userId == u && r.serverId == s && r.active) :=
      List.mem_filter.mpr ⟨hrmem, by simp [hru, hrs, hract]⟩
    have hfl : db.checkIns.filter
        (fun r => r.userId == u && r.serverId == s && r.active) = [r] :=
      eq_singleton_of_mem_of_length_le_one hone hrfil
    simp [handleTask, htask, hauthb, getActiveCheckIn, hfl, hrtid]
  · intro hno
    cases hflc : db.checkIns.filter
        (fun r => r.userId == u && r.serverId == s && r.active) with
    | nil =>
        simp [handleTask, htask, hauthb, getActiveCheckIn, hflc,
          updateTaskStatus, hany]
    | cons a t =>
        have hafil : a ∈ db.checkIns.filter
            (fun r => r.userId == u && r.serverId == s && r.active) := by
          rw [hflc]
          exact List.mem_cons_self a t
        have ham := List.mem_filter.mp hafil
        have hap := ham.2
        simp only [Bool.and_eq_true, beq_iff_eq] at hap
        have hneq : a.taskId ≠ tid := hno a ham.1 hap.1.1 hap.1.2 hap.2
        simp [handleTask, htask, hauthb, getActiveCheckIn, hflc,
          updateTaskStatus, hany, hneq]

/-- C9 witness: user 1 is active on Design; the theorem shows updating Design
is rejected with the state unchanged. -/
theorem handleTask_blocks_active_task_witness :
    handleTask checkinDb 1 "G" 1 true false =
      (checkinDb, .error "Cannot update status of an active task. Please checkout first.") :=
  (handleTask_blocks_active_task checkinDb 1 "G" 1 true false designTask
    (by decide) (Or.inr (by decide)) (by decide)).1
    ⟨⟨10, 1, "G", 1, 0, none, true⟩, by decide⟩

/-
  C10: the duration grammar of Declare.
-/

/-- C10 counterexample: the string +1:05 is not of the plain hh:mm digit form
the claim describes, yet the parser accepts it, because strconv.Atoi admits a
leading sign. -/
theorem declare_time_accepts_signed :
    parseDeclareTime "+1:05" = .ok (1, 5) ∧
    specClaimDurationForm "+1:05" = false := by
  refine ⟨by decide, by decide⟩

/-- C10 amended: Declare accepts exactly the strings splitting at a colon
into two Go-style optionally signed decimal int64 literals with hours at
least zero and minutes between zero and fifty-nine; every rejected string
makes handleDeclare return the invalid-input error before any database
write, leaving the state untouched. -/
theorem declare_time_parse_behavior (db : Db) (u : Nat) (sv : String)
    (tid newId : Nat) (ts : String) (now co : Int) :
    (∀ e, parseDeclareTime ts = .error e →
      handleDeclare db u sv tid ts newId now co = ⟨db, .error e, false⟩) ∧
    (∀ h m, parseDeclareTime ts = .ok (h, m) →
      0 ≤ h ∧ 0 ≤ m ∧ m ≤ 59 ∧
      ∃ hs ms, splitOnChar ':' ts.data = [hs, ms] ∧
        atoi hs = some h ∧ atoi ms = some m) := by
  constructor
  · intro e he
    simp [handleDeclare, he]
  · intro h m hok
    simp only [parseDeclareTime] at hok
    cases hsp : splitOnChar ':' ts.data with
    | nil =>
        rw [hsp] at hok
        simp at hok
    | cons hs rest =>
      cases rest with
      | nil =>
          rw [hsp] at hok
          simp at hok
      | cons ms rest2 =>
        cases rest2 with
        | cons x xs =>
            rw [hsp] at hok
            simp at hok
        | nil =>
          rw [hsp] at hok
          simp at hok
          cases hah : atoi hs with
          | none =>
              rw [hah] at hok
              simp at hok
          | some hv =>
            cases ham : atoi ms with
            | none =>
                rw [hah, ham] at hok
                simp only [] at hok
                split at hok <;> simp at hok
            | some mv =>
                rw [hah, ham] at hok
                simp only [] at hok
                split at hok
                · simp at hok
                · split at hok
                  · simp at hok
                  · rename_i hneg hmr
                    injection hok with hok2
                    injection hok2 with hh hm
                    subst hh
                    subst hm
                    push_neg at hmr
                    exact ⟨by omega, by omega, by omega,
                      hs, ms, rfl, hah, ham⟩

/-- C10 witness: a string without a colon is rejected with the format error
and the state comes back unchanged. -/
theorem declare_time_parse_behavior_witness :
    handleDeclare idleDb 1 "G" 5 "nonsense" 100 0 0 =
      ⟨idleDb, .error "Invalid time format. Please use hh:mm", false⟩ :=
  (declare_time_parse_behavior idleDb 1 "G" 5 100 "nonsense" 0 0).1 _ (by decide)

/-
  C8: Declare never rejects a parsed duration, whatever its magnitude.
-/

/-- A successful GetTaskByID returns a task with the looked-up id, taken from
the tasks table. -/
theorem getTaskByID_some_id (db : Db) (tid : Nat) (task : Task)
    (h : getTaskByID db tid = some task) : task.id = tid ∧ task ∈ db.tasks := by
  have hmem : task ∈ db.tasks.filter (fun t => t.id == tid) :=
    List.mem_of_mem_head? (by simp only [getTaskByID] at h; simp [h])
  have hm := List.mem_filter.mp hmem
  exact ⟨by simpa using hm.2, hm.1⟩

/-- C8: once the duration string parses and the task exists, handleDeclare
always succeeds and writes the declared record, whatever the magnitude of
the parsed duration; the over-eight-hours condition only drives the WARNING
log flag.  The side conditions only rule out interference: fresh row id,
every active row closable at the checkout instant with its task resolvable,
and the declared start lying before the checkout instant. -/
theorem declare_accepts_any_magnitude (db : Db) (u : Nat) (sv : String)
    (tid newId : Nat) (ts : String) (h m : Int) (task : Task) (now co : Int)
    (hparse : parseDeclareTime ts = .ok (h, m))
    (htask : getTaskByID db tid = some task)
    (hnodup : (db.checkIns.map CheckIn.id ++ [newId]).Nodup)
    (hact : ∀ r ∈ db.checkIns, r.userId = u → r.serverId = sv → r.active = true →
      r.endTime = none ∧ r.startTime < co ∧ (getTaskByID db r.taskId).isSome = true)
    (hnew : now - declareDurationNs h m < co) :
    (handleDeclare db u sv tid ts newId now co).resp.isSuccess = true ∧
    (∃ r ∈ (handleDeclare db u sv tid ts newId now co).db.checkIns,
      r.id = newId ∧ r.userId = u ∧ r.serverId = sv ∧ r.taskId = task.id ∧
      r.startTime = now - declareDurationNs h m) ∧
    (handleDeclare db u sv tid ts newId now co).overEightHours =
      decide (declareDurationNs h m > 8 * 3600 * secondNs) := by
  have htid := getTaskByID_some_id db tid task htask
  obtain ⟨a, hga, ha_mem1, ha_end, ha_start, ha_task⟩ :
      ∃ a, getActiveCheckIn
          (declareInsert db u sv task.id (declareDurationNs h m) newId now) u sv
          = .ok (some a) ∧
        a ∈ (declareInsert db u sv task.id (declareDurationNs h m) newId now).checkIns ∧
        a.endTime = none ∧ a.startTime < co ∧
        (getTaskByID db a.taskId).isSome = true := by
    cases hfa : db.checkIns.filter
        (fun r => r.userId == u && r.serverId == sv && r.active) with
    | nil =>
        refine ⟨⟨newId, u, sv, task.id, now - declareDurationNs h m, none, true⟩,
          ?_, ?_, rfl, hnew, ?_⟩
        · simp [getActiveCheckIn, declareInsert, createCheckIn,
            List.filter_append, hfa]
        · simp [declareInsert, createCheckIn]
        · rw [show (⟨newId, u, sv, task.id, now - declareDurationNs h m, none,
            true⟩ : CheckIn).taskId = task.id from rfl, htid.1, htask]
          rfl
    | cons a0 rest =>
        have ha0 : a0 ∈ db.checkIns.filter
            (fun r => r.userId == u && r.serverId == sv && r.active) := by
          rw [hfa]
          exact List.mem_cons_self a0 rest
        have ham := List.mem_filter.mp ha0
        have hap := ham.2
        simp only [Bool.and_eq_true, beq_iff_eq] at hap
        obtain ⟨hend, hst, hts⟩ := hact a0 ham.1 hap.1.1 hap.1.2 hap.2
        refine ⟨a0, ?_, ?_, hend, hst, hts⟩
        · simp [getActiveCheckIn, declareInsert, createCheckIn,
            List.filter_append, hfa]
        · simp only [declareInsert, createCheckIn]
          exact List.mem_append_left _ ham.1
  have hnd1 : ((declareInsert db u sv task.id (declareDurationNs h m) newId
      now).checkIns.map CheckIn.id).Nodup := by
    have heq : (declareInsert db u sv task.id (declareDurationNs h m) newId
        now).checkIns.map CheckIn.id = db.checkIns.map CheckIn.id ++ [newId] := by
      simp [declareInsert, createCheckIn]
    rw [heq]
    exact hnodup
  have hfilq : (declareInsert db u sv task.id (declareDurationNs h m) newId
      now).checkIns.filter (fun r => r.id == a.id && r.endTime == none) = [a] :=
    filter_id_singleton _ hnd1 a ha_mem1 (fun r => r.endTime == none)
      (by simp [ha_end])
  have hco2 : checkOut (declareInsert db u sv task.id (declareDurationNs h m)
      newId now) a.id co =
      .ok (checkOutUpdate (declareInsert db u sv task.id (declareDurationNs h m)
        newId now) a.id co) := by
    have h1 : (if co < a.startTime then a.startTime + secondNs else co) = co :=
      if_neg (by omega)
    simp only [checkOut, hfilq, List.head?_cons, h1, List.all_cons,
      List.all_nil, Bool.and_true]
    rw [if_pos (by simpa using ha_start)]
  obtain ⟨atask, hgt⟩ := Option.isSome_iff_exists.mp ha_task
  have hidonly : (declareInsert db u sv task.id (declareDurationNs h m) newId
      now).checkIns.filter (fun r => r.id == a.id) = [a] := by
    have h2 := filter_id_singleton _ hnd1 a ha_mem1 (fun _ => true) rfl
    simpa using h2
  have hgc : getCheckInByID (checkOutUpdate (declareInsert db u sv task.id
      (declareDurationNs h m) newId now) a.id co) a.id =
      some { a with endTime := some co, active := false, serverId := "" } := by
    simp only [getCheckInByID, checkOutUpdate, List.filter_map]
    have hcomp : ((fun r => r.id == a.id) ∘ closeRow a.id co) =
        (fun r : CheckIn => r.id == a.id) := by
      funext r
      simp [Function.comp, closeRow_id]
    rw [hcomp, hidonly]
    simp [closeRow, ha_end]
  have hgt2 : getTaskByID (declareInsert db u sv task.id (declareDurationNs h m)
      newId now) a.taskId = some atask := hgt
  have hfinal : handleDeclare db u sv tid ts newId now co =
      ⟨checkOutUpdate (declareInsert db u sv task.id (declareDurationNs h m)
          newId now) a.id co,
        .success ("Declared " ++ formatDuration (declareDurationNs h m) ++
          " spent on task: " ++ task.name ++ "\nChecked out from active task: "
          ++ atask.name ++ " (Time spent: " ++ formatDuration (co - a.startTime)
          ++ ")"),
        decide (declareDurationNs h m > 8 * 3600 * secondNs)⟩ := by
    simp only [handleDeclare, hparse, htask, hga, hgt2, hco2, hgc]
  refine ⟨by rw [hfinal]; rfl, ?_, by rw [hfinal]⟩
  rw [hfinal]
  refine ⟨closeRow a.id co
    ⟨newId, u, sv, task.id, now - declareDurationNs h m, none, true⟩, ?_, ?_⟩
  · simp only [checkOutUpdate]
    refine List.mem_map_of_mem _ ?_
    simp [declareInsert, createCheckIn]
  · unfold closeRow
    split <;> exact ⟨rfl, rfl, rfl, rfl, rfl⟩

/-- C8 witness: declaring nine hours on an existing task with no prior
session succeeds, is flagged as over eight hours, and the record is in the
table. -/
theorem declare_accepts_any_magnitude_witness :
    (handleDeclare idleDb 1 "G" 5 "09:00" 100 (86400 * secondNs)
      (86401 * secondNs)).resp.isSuccess = true ∧
    (∃ r ∈ (handleDeclare idleDb 1 "G" 5 "09:00" 100 (86400 * secondNs)
      (86401 * secondNs)).db.checkIns,
      r.id = 100 ∧ r.userId = 1 ∧ r.serverId = "G" ∧ r.taskId = taskX.id ∧
      r.startTime = 86400 * secondNs - declareDurationNs 9 0) ∧
    (handleDeclare idleDb 1 "G" 5 "09:00" 100 (86400 * secondNs)
      (86401 * secondNs)).overEightHours =
      decide (declareDurationNs 9 0 > 8 * 3600 * secondNs) :=
  declare_accepts_any_magnitude idleDb 1 "G" 5 100 "09:00" 9 0 taskX
    (86400 * secondNs) (86401 * secondNs) (by decide) (by decide) (by decide)
    (by decide) (by decide)

end Taskbot
